import Mathlib

/-!
Verification development for the preconf blob bidder repository.

The definitions below are a shallow embedding of the Go source:

* `checkPendingTxs`, `stepEntry`, `stepClient` embed `checkPendingTxs` from
  `cmd/sendblob.go` (the reconciliation round over the `pendingTxs` and
  `preconfCount` maps, iterating over all RPC clients for each entry).
* `originate` and `headStep` embed the head-event branch of `main` in
  `cmd/sendblob.go` (origination of a blob transaction per endpoint when the
  pending set is empty, reconciliation otherwise).
* `sendPreconfBidCall` embeds the decay-window computation of
  `sendPreconfBid`.
* `executeBlobTxFees`, `adjustedTipCap`, `adjustedFeeCap`, `calcBlobFee`,
  `calcExcessBlobGas` embed the fee computations of
  `core/eth/sendtx.go` `ExecuteBlobTransaction` (and the EIP-4844 helpers it
  calls).
* `connectRPCClientWithRetries` embeds the bounded retry loop of
  `connectRPCClientWithRetries`, in its two variants (the `cmd/sendblob.go`
  variant terminates the process with `log.Crit` after exhaustion, the other
  variant returns `nil` so the caller can skip the endpoint).
* `sendBidHTTP` embeds the HTTP `SendBid` of the `mevcommit` package
  (bid request construction from either transaction hashes or raw payloads).
* `endpointSubmitRound` embeds the per-endpoint submit-then-bid sequence of
  the lifecycle loop's origination branch.

Go maps keyed by transaction hash are modelled as association lists; map
indexing with `++` on a missing key yields the Go zero value, hence
`lookupCount` defaults to 0.  External effects (receipt lookups, block-number
queries, dial attempts, wall-clock time, randomness) are passed in as explicit
data.
-/

/-- Constant `MAX_PRECONF_ATTEMPTS` from `cmd/sendblob.go`. -/
def MAX_PRECONF_ATTEMPTS : Nat := 50

/-- Constant `RECONNECT_INTERVAL` from `cmd/sendblob.go`, in seconds. -/
def RECONNECT_INTERVAL_SECONDS : Nat := 30

/-- Result of `client.TransactionReceipt` for a given transaction hash:
a receipt in some block, the `ethereum.NotFound` error, or any other error. -/
inductive ReceiptResult : Type where
  | found (blockNumber : Nat)
  | notFound
  | otherError
deriving DecidableEq

/-- Observable behaviour of one RPC client during one round: the receipt
lookup per transaction hash and the result of `client.BlockNumber`
(`none` models an error). -/
structure ClientObs : Type where
  receipt : String → ReceiptResult
  blockNumber : Option Nat

/-- An RPC client as the reconciler sees it, together with the account's
current on-chain nonce at that observer.  `checkPendingTxs` in the source
never queries the nonce; the field records the chain fact the spec's
`Superseded` transition refers to. -/
structure RpcClient : Type where
  receipt : String → ReceiptResult
  blockNumber : Option Nat
  accountNonce : Nat

/-- A preconfirmation bid emitted by the reconciler: the transaction hash and
the block number the bid is valid for. -/
structure Bid : Type where
  txHash : String
  blockNumber : Nat
deriving DecidableEq

/-- The mutable state of the lifecycle loop: the `pendingTxs` map
(transaction hash to origination block) and the `preconfCount` map
(transaction hash to attempt counter), both modelled as association lists. -/
structure PendState : Type where
  pendingTxs : List (String × Nat)
  preconfCount : List (String × Nat)
deriving DecidableEq

/-- Go map read `m[k]` for an int-valued map: the stored value, or the zero
value 0 when the key is absent (as in `preconfCount[txHash]++`). -/
def lookupCount (m : List (String × Nat)) (k : String) : Nat :=
  match m.find? (fun p => p.1 = k) with
  | some p => p.2
  | none => 0

/-- Go `delete(m, k)`. -/
def eraseKey (m : List (String × Nat)) (k : String) : List (String × Nat) :=
  m.filter (fun p => p.1 ≠ k)

/-- Go map write `m[k] = v` (overwrite or insert). -/
def setKey (m : List (String × Nat)) (k : String) (v : Nat) : List (String × Nat) :=
  if (m.find? (fun p => p.1 = k)).isSome then
    m.map (fun p => if p.1 = k then (k, v) else p)
  else
    m ++ [(k, v)]

/-- Body of the inner `for _, client := range clients` loop of
`checkPendingTxs` for one client and one pending entry `(tx, initialBlock)`:

* a receipt found deletes the entry from both maps;
* `ethereum.NotFound` with the current block past `initialBlock` resends a
  preconfirmation bid for `currentBlock+1`, increments `preconfCount[tx]`,
  and deletes both map entries once the counter reaches
  `MAX_PRECONF_ATTEMPTS` (here the parameter `max`);
* a block-number error or any other receipt error leaves the state alone. -/
def stepClient (max : Nat) (tx : String) (initialBlock : Nat) (c : RpcClient)
    (s : PendState) : PendState × List Bid :=
  match c.receipt tx with
  | ReceiptResult.found _ =>
      (⟨eraseKey s.pendingTxs tx, eraseKey s.preconfCount tx⟩, [])
  | ReceiptResult.otherError => (s, [])
  | ReceiptResult.notFound =>
      match c.blockNumber with
      | none => (s, [])
      | some cur =>
          if initialBlock < cur then
            let newCount := lookupCount s.preconfCount tx + 1
            let s1 : PendState := ⟨s.pendingTxs, setKey s.preconfCount tx newCount⟩
            if max ≤ newCount then
              (⟨eraseKey s1.pendingTxs tx, eraseKey s1.preconfCount tx⟩, [⟨tx, cur + 1⟩])
            else
              (s1, [⟨tx, cur + 1⟩])
          else (s, [])

/-- The inner loop of `checkPendingTxs` over all clients for one entry.
The loop variable `(tx, initialBlock)` is fixed for the whole inner loop,
even if the entry is deleted from the maps along the way (as in the source,
which has no `break`). -/
def stepEntry (max : Nat) (clients : List RpcClient) (tx : String)
    (initialBlock : Nat) (s : PendState) : PendState × List Bid :=
  clients.foldl
    (fun acc c =>
      let r := stepClient max tx initialBlock c acc.1
      (r.1, acc.2 ++ r.2))
    (s, [])

/-- `checkPendingTxs` from `cmd/sendblob.go`: one reconciliation round over
the pending set, returning the new state and the bids sent during the round. -/
def checkPendingTxs (max : Nat) (clients : List RpcClient) (s : PendState) :
    PendState × List Bid :=
  s.pendingTxs.foldl
    (fun acc e =>
      let r := stepEntry max clients e.1 e.2 acc.1
      (r.1, acc.2 ++ r.2))
    (s, [])

/-- Decidable resend-inertness of one client for one entry: the client does
not trigger the resend branch of `stepClient` and does not report a receipt
(it reports `otherError`, or `notFound` with the block number unavailable or
not past the entry's origination block). -/
def inertFor (c : RpcClient) (tx : String) (initialBlock : Nat) : Bool :=
  match c.receipt tx with
  | ReceiptResult.found _ => false
  | ReceiptResult.otherError => true
  | ReceiptResult.notFound =>
      match c.blockNumber with
      | none => true
      | some cur => decide (cur ≤ initialBlock)

/-- Result of `ee.ExecuteBlobTransaction` as seen by `main`: on success, the
signed transaction's hash and the returned target block number
(`header.Number + offset`); otherwise an error. -/
inductive ExecOutcome : Type where
  | ok (txHash : String) (targetBlock : Nat)
  | fail
deriving DecidableEq

/-- The `len(pendingTxs) == 0` branch of `main`'s head-event handler in
`cmd/sendblob.go`: for each RPC endpoint, execute a blob transaction; on
success set `preconfCount[txHash] = 1` and send one preconfirmation bid for
the returned block number.  Nothing is ever inserted into `pendingTxs`. -/
def originate (execRes : String → ExecOutcome) (endpoints : List String)
    (s : PendState) : PendState × List Bid :=
  endpoints.foldl
    (fun acc ep =>
      match execRes ep with
      | ExecOutcome.fail => acc
      | ExecOutcome.ok tx blk =>
          (⟨acc.1.pendingTxs, setKey acc.1.preconfCount tx 1⟩, acc.2 ++ [⟨tx, blk⟩]))
    (s, [])

/-- One head event in `main`'s loop: originate when the pending set is
empty, otherwise reconcile via `checkPendingTxs`. -/
def headStep (max : Nat) (clients : List RpcClient)
    (execRes : String → ExecOutcome) (endpoints : List String) (s : PendState) :
    PendState × List Bid :=
  if s.pendingTxs.isEmpty then originate execRes endpoints s
  else checkPendingTxs max clients s

/-- Go `strings.TrimPrefix(s, "0x")`: drop one leading `"0x"` if present. -/
def trim0x (s : String) : String :=
  match s.data with
  | '0' :: 'x' :: rest => String.mk rest
  | _ => s

/-- The bid request produced by `sendPreconfBid` in `cmd/sendblob.go` for a
transaction hash.  Wall-clock time (`time.Now().UnixMilli()`) and the random
wei amount are inputs of the embedding. -/
structure PreconfBid : Type where
  txHashes : List String
  amountWei : Nat
  blockNumber : Nat
  decayStart : Nat
  decayEnd : Nat
deriving DecidableEq

/-- `sendPreconfBid` from `cmd/sendblob.go`: strips the `0x` prefix from the
hash, sets `decayStart` to the current time in milliseconds and `decayEnd`
36 seconds (36000 ms) later. -/
def sendPreconfBidCall (nowMs : Nat) (randomWeiAmount : Nat) (txHash : String)
    (blockNumber : Nat) : PreconfBid :=
  { txHashes := [trim0x txHash]
    amountWei := randomWeiAmount
    blockNumber := blockNumber
    decayStart := nowMs
    decayEnd := nowMs + 36 * 1000 }

/-- Constant `maxPriorityFee` (10 gwei) from `ExecuteBlobTransaction` in
`core/eth/sendtx.go`. -/
def MAX_PRIORITY_FEE : Nat := 10000000000

/-- EIP-4844 constant `MIN_BLOB_GASPRICE` used by `eip4844.CalcBlobFee`. -/
def MIN_BLOB_GASPRICE : Nat := 1

/-- EIP-4844 constant `BLOB_GASPRICE_UPDATE_FRACTION` used by
`eip4844.CalcBlobFee`. -/
def BLOB_GASPRICE_UPDATE_FRACTION : Nat := 3338477

/-- EIP-4844 constant `TARGET_BLOB_GAS_PER_BLOCK` (3 blobs of 131072 gas)
used by `eip4844.CalcExcessBlobGas`. -/
def TARGET_BLOB_GAS_PER_BLOCK : Nat := 393216

/-- The iteration of geth's `fakeExponential` Taylor-expansion loop
(`output += accum; accum = accum * numerator / denominator / i`).  The Go
loop runs while `accum > 0`; the `fuel` argument bounds the number of
iterations of this embedding and is chosen large enough for the inputs the
theorems evaluate it at (the loop stops as soon as `accum = 0`). -/
def fakeExponentialGo (fuel accum output numerator denominator i : Nat) : Nat :=
  match fuel with
  | 0 => output
  | Nat.succ f =>
      if accum = 0 then output
      else fakeExponentialGo f (accum * numerator / denominator / i) (output + accum)
        numerator denominator (i + 1)

/-- `eip4844.CalcBlobFee`: `fakeExponential(MIN_BLOB_GASPRICE,
excessBlobGas, BLOB_GASPRICE_UPDATE_FRACTION)`. -/
def calcBlobFee (excessBlobGas : Nat) : Nat :=
  fakeExponentialGo 64 (MIN_BLOB_GASPRICE * BLOB_GASPRICE_UPDATE_FRACTION) 0
      excessBlobGas BLOB_GASPRICE_UPDATE_FRACTION 1
    / BLOB_GASPRICE_UPDATE_FRACTION

/-- `eip4844.CalcExcessBlobGas`: excess blob gas of the current block from
the parent's excess and used blob gas. -/
def calcExcessBlobGas (parentExcess parentUsed : Nat) : Nat :=
  if parentExcess + parentUsed < TARGET_BLOB_GAS_PER_BLOCK then 0
  else parentExcess + parentUsed - TARGET_BLOB_GAS_PER_BLOCK

/-- The blob fee cap computed by `ExecuteBlobTransaction`: the chain blob
base fee plus one unit, then multiplied by the 110 increment factor and
divided by 100 in big-integer arithmetic. -/
def blobFeeCapOf (blobBaseFee : Nat) : Nat :=
  (blobBaseFee + 1) * 110 / 100

/-- `gasTipCapAdjusted` of `ExecuteBlobTransaction`: the suggested tip
(plus 0) times `numBlobs`, clamped to `maxPriorityFee` (10 gwei). -/
def adjustedTipCap (suggestedTip numBlobs : Nat) : Nat :=
  let t := (suggestedTip + 0) * numBlobs
  if MAX_PRIORITY_FEE < t then MAX_PRIORITY_FEE else t

/-- `gasFeeCapAdjusted` of `ExecuteBlobTransaction`: twice the adjusted tip
cap, incremented by one unit exactly when the suggested gas price is less
than or equal to it. -/
def adjustedFeeCap (suggestedGasPrice adjTip : Nat) : Nat :=
  let f := adjTip * 2
  if suggestedGasPrice ≤ f then f + 1 else f

/-- The fee fields of the `types.BlobTx` literal built by
`ExecuteBlobTransaction`. -/
structure BlobTxFees : Type where
  gasTipCap : Nat
  gasFeeCap : Nat
  blobFeeCap : Nat
deriving DecidableEq

/-- The fee computation of `ExecuteBlobTransaction` in `core/eth/sendtx.go`,
from the parent header's excess/used blob gas and the endpoint's suggested
tip and gas price.  The transaction literal sets `GasTipCap` to the constant
0 (the adjusted tip cap is computed but left commented out in the source). -/
def executeBlobTxFees (parentExcess parentUsed suggestedTip suggestedGasPrice
    numBlobs : Nat) : BlobTxFees :=
  let blobBaseFee := calcBlobFee (calcExcessBlobGas parentExcess parentUsed)
  let tipAdj := adjustedTipCap suggestedTip numBlobs
  { gasTipCap := 0
    gasFeeCap := adjustedFeeCap suggestedGasPrice tipAdj
    blobFeeCap := blobFeeCapOf blobBaseFee }

/-- What the connector does once all dial attempts are exhausted:
`cmd/sendblob.go` calls `log.Crit` (terminating the process), the other
entry point logs an error and returns `nil` to the caller. -/
inductive ExhaustBehavior : Type where
  | critProcess
  | returnNil
deriving DecidableEq

/-- Outcome of the bounded connect loop. -/
inductive ConnectOutcome : Type where
  | connected (attemptIndex : Nat)
  | critFailure
  | nilReturn
deriving DecidableEq

/-- Trace of one run of the bounded connect loop: number of dial attempts
made, the sleeps performed after failed attempts (in seconds), and the
outcome. -/
structure ConnectTrace : Type where
  attempts : Nat
  sleeps : List Nat
  outcome : ConnectOutcome
deriving DecidableEq

/-- The retry loop of `connectRPCClientWithRetries`: attempt `i` dials; on
failure sleep `RECONNECT_INTERVAL * 2^i` and continue, for at most
`remaining` further attempts. -/
def connectAux (behavior : ExhaustBehavior) (dialOk : Nat → Bool) :
    Nat → Nat → ConnectTrace
  | 0, _ =>
      ⟨0, [],
        match behavior with
        | ExhaustBehavior.critProcess => ConnectOutcome.critFailure
        | ExhaustBehavior.returnNil => ConnectOutcome.nilReturn⟩
  | Nat.succ r, i =>
      if dialOk i then ⟨1, [], ConnectOutcome.connected i⟩
      else
        let rest := connectAux behavior dialOk r (i + 1)
        ⟨rest.attempts + 1, RECONNECT_INTERVAL_SECONDS * 2 ^ i :: rest.sleeps,
          rest.outcome⟩

/-- `connectRPCClientWithRetries` from `cmd/sendblob.go` (bounded endpoint
connector), parameterised by the per-attempt dial results and the variant's
behaviour on exhaustion. -/
def connectRPCClientWithRetries (behavior : ExhaustBehavior)
    (dialOk : Nat → Bool) (maxRetries : Nat) : ConnectTrace :=
  connectAux behavior dialOk maxRetries 0

/-- A submission error from `ee.SendBundle`, distinguishing the
"replacement underpriced" rejection the spec singles out. -/
inductive SubmitError : Type where
  | replacementUnderpriced
  | other
deriving DecidableEq

/-- Result of `ee.SendBundle`. -/
inductive BundleResult : Type where
  | ok
  | err (e : SubmitError)
deriving DecidableEq

/-- Externally visible actions of the per-endpoint origination sequence. -/
inductive RoundAction : Type where
  | submitBundle
  | logSubmitError (e : SubmitError)
  | sendBid (blockNumber : Nat)
deriving DecidableEq

/-- The per-endpoint submit path of `main`'s origination branch (the
`use-payload` variant sends the payload bid directly; otherwise the bundle
is submitted once, a submission error is only logged, and the bid is sent
regardless). -/
def endpointSubmitRound (usePayload : Bool) (bundleRes : BundleResult)
    (blk : Nat) : List RoundAction :=
  if usePayload then [RoundAction.sendBid blk]
  else
    RoundAction.submitBundle ::
      ((match bundleRes with
        | BundleResult.ok => []
        | BundleResult.err e => [RoundAction.logSubmitError e]) ++
        [RoundAction.sendBid blk])

/-- Counts the bundle submissions in a list of round actions. -/
def countSubmits (l : List RoundAction) : Nat :=
  l.countP (fun a =>
    match a with
    | RoundAction.submitBundle => true
    | _ => false)

/-- Whether a bid is sent during the round. -/
def hasBid (l : List RoundAction) : Bool :=
  l.any (fun a =>
    match a with
    | RoundAction.sendBid _ => true
    | _ => false)

/-- A raw transaction as the HTTP `SendBid` consumes it: `marshal` is the
hex-encoded result of `tx.MarshalBinary()`, or `none` when marshalling
fails. -/
structure RawTx : Type where
  marshal : Option String

/-- The duck-typed `input interface{}` of the HTTP `SendBid`: a list of hash
strings, a list of transactions, or any other type (carrying its name for
the error message). -/
inductive SendBidInput : Type where
  | hashes (l : List String)
  | txs (l : List RawTx)
  | other (typeName : String)

/-- The JSON body the HTTP `SendBid` posts. -/
structure HTTPBidRequest : Type where
  txHashes : List String
  rawTransactions : List String
  amount : String
  blockNumber : Int
  decayStartTimestamp : Int
  decayEndTimestamp : Int
  revertingTxHashes : List String
deriving DecidableEq

/-- Request construction at the end of the HTTP `SendBid`: the `txHashes`
field is set when there are hashes, otherwise the `rawTransactions` field is
set when there are raw payloads. -/
def buildBidRequest (txHashes raws : List String) (amount : String)
    (blockNumber decayStart decayEnd : Int) : HTTPBidRequest :=
  let base : HTTPBidRequest :=
    { txHashes := []
      rawTransactions := []
      amount := amount
      blockNumber := blockNumber
      decayStartTimestamp := decayStart
      decayEndTimestamp := decayEnd
      revertingTxHashes := [] }
  if 0 < txHashes.length then { base with txHashes := txHashes }
  else if 0 < raws.length then { base with rawTransactions := raws }
  else base

/-- The HTTP `SendBid` of the `mevcommit` package, up to the point where the
request would be posted: type-switch on the input (hash strings get their
`0x` prefix stripped; transactions are marshalled, failing fast on a
marshalling error; anything else is rejected before a request exists), then
request construction. -/
def sendBidHTTP (input : SendBidInput) (amount : String)
    (blockNumber decayStart decayEnd : Int) : Except String HTTPBidRequest :=
  match input with
  | SendBidInput.other t => Except.error ("unsupported input type: " ++ t)
  | SendBidInput.hashes l =>
      Except.ok
        (buildBidRequest (l.map trim0x) [] amount blockNumber decayStart decayEnd)
  | SendBidInput.txs l =>
      match l.mapM (fun tx => tx.marshal) with
      | none => Except.error "failed to marshal transaction"
      | some raws =>
          Except.ok
            (buildBidRequest [] raws amount blockNumber decayStart decayEnd)

/-- Modelled from the spec: the claim that the Reconciler implements a
`Superseded` transition ("the account's on-chain nonce has advanced past the
entry's nonce without a matching receipt ... entry is removed without
re-bidding").  The source of `checkPendingTxs` contains no nonce handling;
this proposition states the claimed behaviour over the embedding so it can
be settled. -/
def specSupersededRemoval : Prop :=
  ∀ (max : Nat) (clients : List RpcClient) (s : PendState) (tx : String)
    (initialBlock entryNonce : Nat),
    (tx, initialBlock) ∈ s.pendingTxs →
    clients ≠ [] →
    (∀ c ∈ clients,
      c.receipt tx = ReceiptResult.notFound ∧ entryNonce < c.accountNonce) →
    ((checkPendingTxs max clients s).1.pendingTxs.all (fun e => e.1 ≠ tx) = true ∧
      (checkPendingTxs max clients s).2.all (fun b => b.txHash ≠ tx) = true)

/-- Modelled from the spec: the claim that the submit path recognises a
"replacement underpriced" submission failure, resubmits with escalated fees
(at least one further submission), and that any other submission error ends
the round with no bid sent.  The source handles all submission errors
identically (log and continue), so this proposition states the claimed
behaviour over the embedding so it can be settled. -/
def specUnderpricedRetry : Prop :=
  ∀ blk : Nat,
    2 ≤ countSubmits
        (endpointSubmitRound false
          (BundleResult.err SubmitError.replacementUnderpriced) blk) ∧
      hasBid
          (endpointSubmitRound false (BundleResult.err SubmitError.other) blk) =
        false

/-- Modelled from the spec: the claim that after `maxRetries` dial failures
the bounded connector returns a failure to the caller (so the caller, not
the connector, decides whether that is fatal). -/
def specConnectorReturnsFailure (behavior : ExhaustBehavior) : Prop :=
  ∀ (maxRetries : Nat) (dialOk : Nat → Bool),
    (∀ i, i < maxRetries → dialOk i = false) →
    (connectRPCClientWithRetries behavior dialOk maxRetries).outcome =
      ConnectOutcome.nilReturn

/-- The outcome `connectAux` produces once all attempts are exhausted. -/
def exhaustOutcome (behavior : ExhaustBehavior) : ConnectOutcome :=
  match behavior with
  | ExhaustBehavior.critProcess => ConnectOutcome.critFailure
  | ExhaustBehavior.returnNil => ConnectOutcome.nilReturn

theorem stepClient_inert (max : Nat) (tx : String) (initialBlock : Nat)
    (c : RpcClient) (s : PendState) (h : inertFor c tx initialBlock = true) :
    stepClient max tx initialBlock c s = (s, []) := by
  unfold inertFor at h
  unfold stepClient
  cases hr : c.receipt tx with
  | found b => rw [hr] at h; exact absurd h (by simp)
  | otherError => rfl
  | notFound =>
      rw [hr] at h
      cases hb : c.blockNumber with
      | none => rfl
      | some cur =>
          rw [hb] at h
          have hle : cur ≤ initialBlock := of_decide_eq_true h
          simp [Nat.not_lt_of_le hle]

theorem stepEntry_inert (max : Nat) (clients : List RpcClient) (tx : String)
    (initialBlock : Nat) (s : PendState)
    (H : ∀ c ∈ clients, inertFor c tx initialBlock = true) :
    stepEntry max clients tx initialBlock s = (s, []) := by
  unfold stepEntry
  induction clients with
  | nil => rfl
  | cons c cl ih =>
      have hc : inertFor c tx initialBlock = true := H c (by simp)
      have hrest : ∀ c ∈ cl, inertFor c tx initialBlock = true :=
        fun d hd => H d (by simp [hd])
      simp only [List.foldl_cons, stepClient_inert max tx initialBlock c s hc]
      exact ih hrest

theorem checkPendingTxs_inert (max : Nat) (clients : List RpcClient)
    (s : PendState)
    (H : ∀ e ∈ s.pendingTxs, ∀ c ∈ clients, inertFor c e.1 e.2 = true) :
    checkPendingTxs max clients s = (s, []) := by
  unfold checkPendingTxs
  have aux : ∀ (l : List (String × Nat)),
      (∀ e ∈ l, ∀ c ∈ clients, inertFor c e.1 e.2 = true) →
      l.foldl
        (fun acc e =>
          let r := stepEntry max clients e.1 e.2 acc.1
          (r.1, acc.2 ++ r.2))
        (s, []) = (s, []) := by
    intro l
    induction l with
    | nil => intro _; rfl
    | cons e tl ih =>
        intro hl
        have he : ∀ c ∈ clients, inertFor c e.1 e.2 = true := hl e (by simp)
        have htl : ∀ e ∈ tl, ∀ c ∈ clients, inertFor c e.1 e.2 = true :=
          fun d hd => hl d (by simp [hd])
        simp only [List.foldl_cons, stepEntry_inert max clients e.1 e.2 s he,
          List.append_nil]
        exact ih htl
  exact aux s.pendingTxs H

/-- C1.  The claim that the reconciliation round is idempotent fails on the
code: for a still-pending entry with the block number advanced past its
origination block, every call of `checkPendingTxs` resends a bid and
increments the attempt counter, so a second call in the same round changes
the state again and submits a second bid. -/
theorem c1_counterexample :
    ((checkPendingTxs 50 [⟨fun _ => ReceiptResult.notFound, some 101, 0⟩]
        (checkPendingTxs 50 [⟨fun _ => ReceiptResult.notFound, some 101, 0⟩]
          ⟨[("aa", 100)], [("aa", 1)]⟩).1).1 ≠
      (checkPendingTxs 50 [⟨fun _ => ReceiptResult.notFound, some 101, 0⟩]
        ⟨[("aa", 100)], [("aa", 1)]⟩).1) ∧
    (checkPendingTxs 50 [⟨fun _ => ReceiptResult.notFound, some 101, 0⟩]
        (checkPendingTxs 50 [⟨fun _ => ReceiptResult.notFound, some 101, 0⟩]
          ⟨[("aa", 100)], [("aa", 1)]⟩).1).2 ≠ [] := by
  decide

/-- C1 (amended).  The reconciliation round is idempotent exactly in the
no-resend case: when every entry that survives the first call is inert for
every client (no receipt reported, and no client sees a block number past
the entry's origination block), a second `checkPendingTxs` call in the same
round leaves the state unchanged and submits no bid. -/
theorem c1_reconciler_idempotent_when_inert (max : Nat)
    (clients : List RpcClient) (s : PendState)
    (H : ∀ e ∈ (checkPendingTxs max clients s).1.pendingTxs, ∀ c ∈ clients,
      inertFor c e.1 e.2 = true) :
    checkPendingTxs max clients (checkPendingTxs max clients s).1 =
      ((checkPendingTxs max clients s).1, []) :=
  checkPendingTxs_inert max clients (checkPendingTxs max clients s).1 H

/-- Witness for C1 (amended): a round that confirms its only entry leaves an
empty pending set, and the second call is a no-op. -/
theorem c1_reconciler_idempotent_when_inert_witness :
    (∀ e ∈ (checkPendingTxs 50 [⟨fun _ => ReceiptResult.found 101, some 101, 0⟩]
        ⟨[("aa", 100)], [("aa", 1)]⟩).1.pendingTxs,
      ∀ c ∈ [(⟨fun _ => ReceiptResult.found 101, some 101, 0⟩ : RpcClient)],
        inertFor c e.1 e.2 = true) ∧
    checkPendingTxs 50 [⟨fun _ => ReceiptResult.found 101, some 101, 0⟩]
        (checkPendingTxs 50 [⟨fun _ => ReceiptResult.found 101, some 101, 0⟩]
          ⟨[("aa", 100)], [("aa", 1)]⟩).1 =
      ((checkPendingTxs 50 [⟨fun _ => ReceiptResult.found 101, some 101, 0⟩]
          ⟨[("aa", 100)], [("aa", 1)]⟩).1, []) :=
  ⟨by decide,
    c1_reconciler_idempotent_when_inert 50
      [⟨fun _ => ReceiptResult.found 101, some 101, 0⟩]
      ⟨[("aa", 100)], [("aa", 1)]⟩ (by decide)⟩

/-- C2.  Evaluating the head-event handler at the claim's scenario (head
event, empty pending set, successful blob transaction "aa" targeting block
101): one bid is sent and the attempt counter is set to 1, but nothing is
ever inserted into `pendingTxs`, so the pending set stays empty and the next
head event re-originates (emits a fresh bid through `originate`) instead of
taking the reconciliation path the claim describes. -/
theorem c2_origination_never_records_pending :
    headStep 50 [] (fun _ => ExecOutcome.ok "aa" 101) ["ep1"] ⟨[], []⟩ =
      (⟨[], [("aa", 1)]⟩, [⟨"aa", 101⟩]) ∧
    (headStep 50 [] (fun _ => ExecOutcome.ok "aa" 101) ["ep1"]
        (headStep 50 [] (fun _ => ExecOutcome.ok "aa" 101) ["ep1"]
          ⟨[], []⟩).1).2 = [⟨"aa", 101⟩] := by
  decide

/-- C3.  With two observer clients both reporting no receipt and an advanced
block, an entry entering the round with counter 49 is removed as exhausted
at the first client (counter reaches `MAX_PRECONF_ATTEMPTS` = 50), yet the
inner loop continues: the second client sends a further bid for the removed
entry in the same round and recreates its attempt-counter entry.  This
falsifies the claim's "no further bids are sent for that entry in the same
round after removal". -/
theorem c3_counterexample :
    checkPendingTxs 50
        [⟨fun _ => ReceiptResult.notFound, some 101, 0⟩,
          ⟨fun _ => ReceiptResult.notFound, some 101, 0⟩]
        ⟨[("aa", 100)], [("aa", 49)]⟩ =
      (⟨[], [("aa", 1)]⟩, [⟨"aa", 102⟩, ⟨"aa", 102⟩]) := by
  decide

/-- C3 (amended).  With a single observer client reporting no receipt and an
advanced block number, the exhaustion boundary behaves as claimed: exactly
one bid is sent; the entry is removed exactly when the incremented counter
first reaches the maximum (in the same round), and is kept with counter
incremented by one when it is still below the maximum. -/
theorem c3_exhaustion_boundary_single_client (max count initialBlock cur : Nat)
    (tx : String) (h : initialBlock < cur) :
    (checkPendingTxs max [⟨fun _ => ReceiptResult.notFound, some cur, 0⟩]
        ⟨[(tx, initialBlock)], [(tx, count)]⟩).2 = [⟨tx, cur + 1⟩] ∧
    (max ≤ count + 1 →
      (checkPendingTxs max [⟨fun _ => ReceiptResult.notFound, some cur, 0⟩]
          ⟨[(tx, initialBlock)], [(tx, count)]⟩).1 = ⟨[], []⟩) ∧
    (count + 1 < max →
      (checkPendingTxs max [⟨fun _ => ReceiptResult.notFound, some cur, 0⟩]
          ⟨[(tx, initialBlock)], [(tx, count)]⟩).1 =
        ⟨[(tx, initialBlock)], [(tx, count + 1)]⟩) := by
  simp only [checkPendingTxs, stepEntry, stepClient, List.foldl_cons,
    List.foldl_nil, lookupCount, eraseKey, setKey, List.find?, List.filter,
    List.map]
  simp only [decide_True, Option.isSome_some, if_pos h]
  by_cases hm : max ≤ count + 1
  · simp [hm]
  · simp [hm]

/-- Witness for C3 (amended): a concrete non-exhausting resend round. -/
theorem c3_exhaustion_boundary_single_client_witness :
    (100 : Nat) < 101 ∧ (1 : Nat) + 1 < 50 ∧
    (checkPendingTxs 50 [⟨fun _ => ReceiptResult.notFound, some 101, 0⟩]
        ⟨[("aa", 100)], [("aa", 1)]⟩).2 = [⟨"aa", 102⟩] ∧
    (checkPendingTxs 50 [⟨fun _ => ReceiptResult.notFound, some 101, 0⟩]
        ⟨[("aa", 100)], [("aa", 1)]⟩).1 = ⟨[("aa", 100)], [("aa", 2)]⟩ :=
  ⟨by decide, by decide,
    (c3_exhaustion_boundary_single_client 50 1 100 101 "aa" (by decide)).1,
    (c3_exhaustion_boundary_single_client 50 1 100 101 "aa" (by decide)).2.2
      (by decide)⟩

theorem stepEntry_map_nonce (max : Nat) (obs : List ClientObs)
    (n1 n2 : ClientObs → Nat) (tx : String) (initialBlock : Nat)
    (s : PendState) :
    stepEntry max
        (obs.map fun o => (⟨o.receipt, o.blockNumber, n1 o⟩ : RpcClient)) tx
        initialBlock s =
      stepEntry max
        (obs.map fun o => (⟨o.receipt, o.blockNumber, n2 o⟩ : RpcClient)) tx
        initialBlock s := by
  unfold stepEntry
  rw [List.foldl_map, List.foldl_map]
  rfl

/-- C4 (amended).  `checkPendingTxs` never inspects the account nonce: its
result is unchanged under any reassignment of the observers' nonce views.
An entry superseded on chain is therefore indistinguishable from a pending
one; it keeps being re-bid while observers report no receipt and an advanced
block, until confirmation or exhaustion. -/
theorem c4_reconciler_ignores_nonce (max : Nat) (obs : List ClientObs)
    (n1 n2 : ClientObs → Nat) (s : PendState) :
    checkPendingTxs max
        (obs.map fun o => (⟨o.receipt, o.blockNumber, n1 o⟩ : RpcClient)) s =
      checkPendingTxs max
        (obs.map fun o => (⟨o.receipt, o.blockNumber, n2 o⟩ : RpcClient)) s := by
  unfold checkPendingTxs
  refine List.foldl_ext _ _ _ (fun acc e _ => ?_)
  rw [stepEntry_map_nonce max obs n1 n2 e.1 e.2 acc.1]

/-- C4.  The claimed `Superseded` transition does not exist in the code: an
entry whose nonce has been overtaken on chain (entry nonce 3, account nonce
9 at the only observer) with no receipt anywhere is not removed by the
reconciliation round, and a fresh bid is sent for it. -/
theorem c4_counterexample : ¬ specSupersededRemoval := by
  intro h
  have hc := h 50 [⟨fun _ => ReceiptResult.notFound, some 101, 9⟩]
    ⟨[("aa", 100)], [("aa", 1)]⟩ "aa" 100 3 (by decide)
    (List.cons_ne_nil _ _)
    (by
      intro c hcmem
      have : c = ⟨fun _ => ReceiptResult.notFound, some 101, 9⟩ := by
        simpa using hcmem
      subst this
      exact ⟨rfl, by decide⟩)
  exact absurd hc.1 (by decide)

/-- C5.  No "replacement underpriced" recognition exists in the submit path:
on that error the round performs no resubmission (a single bundle
submission happens), and on any other submission error a bid is still sent
— both contradicting the claim. -/
theorem c5_counterexample : ¬ specUnderpricedRetry := by
  intro h
  exact absurd (h 0).1 (by decide)

/-- C5 (amended).  All submission outcomes are handled uniformly by the
origination round: exactly one bundle submission per endpoint (none in the
payload mode), errors are only logged, there is no fee re-escalation retry,
and the preconfirmation bid is sent regardless of the submission outcome. -/
theorem c5_submit_errors_uniform (usePayload : Bool) (bundleRes : BundleResult)
    (blk : Nat) :
    countSubmits (endpointSubmitRound usePayload bundleRes blk) =
      (if usePayload then 0 else 1) ∧
    hasBid (endpointSubmitRound usePayload bundleRes blk) = true := by
  cases usePayload <;> cases bundleRes <;>
    simp [endpointSubmitRound, countSubmits, hasBid, List.countP_cons]

/-- C6.  Every bid built by `sendPreconfBid` starts its decay window at the
wall-clock time of that submission and ends exactly 36000 ms later, so the
decay start is monotonically non-decreasing across successive bids for the
same transaction (wall-clock time being non-decreasing). -/
theorem c6_decay_window (now1 now2 amt1 amt2 blk1 blk2 : Nat) (tx : String)
    (h : now1 ≤ now2) :
    (sendPreconfBidCall now1 amt1 tx blk1).decayStart = now1 ∧
    (sendPreconfBidCall now1 amt1 tx blk1).decayEnd -
        (sendPreconfBidCall now1 amt1 tx blk1).decayStart = 36000 ∧
    (sendPreconfBidCall now1 amt1 tx blk1).decayStart ≤
      (sendPreconfBidCall now2 amt2 tx blk2).decayStart := by
  refine ⟨rfl, ?_, ?_⟩
  · simp [sendPreconfBidCall]
  · simpa [sendPreconfBidCall] using h

/-- Witness for C6: two successive bids 500 ms apart. -/
theorem c6_decay_window_witness :
    (1000 : Nat) ≤ 1500 ∧
    (sendPreconfBidCall 1000 7 "0xaa" 101).decayStart = 1000 ∧
    (sendPreconfBidCall 1000 7 "0xaa" 101).decayEnd -
        (sendPreconfBidCall 1000 7 "0xaa" 101).decayStart = 36000 ∧
    (sendPreconfBidCall 1000 7 "0xaa" 101).decayStart ≤
      (sendPreconfBidCall 1500 9 "0xaa" 102).decayStart :=
  ⟨by decide, c6_decay_window 1000 1500 7 9 101 102 "0xaa" (by decide)⟩

/-- C7.  With a suggested tip of zero the adjusted tip cap is zero and the
fee-cap increment branch does not fire (suggested gas price 1 > 0), so the
submitted transaction has fee cap 0 = tip cap: the fee cap is neither
`2 * tipCap + 1` nor strictly greater than the tip cap, falsifying the
claim's "for every suggested tip and fee value". -/
theorem c7_counterexample :
    (executeBlobTxFees 0 0 0 1 6).gasTipCap = 0 ∧
    (executeBlobTxFees 0 0 0 1 6).gasFeeCap = 0 ∧
    ¬ ((executeBlobTxFees 0 0 0 1 6).gasTipCap <
        (executeBlobTxFees 0 0 0 1 6).gasFeeCap) ∧
    (executeBlobTxFees 0 0 0 1 6).gasFeeCap ≠
      (executeBlobTxFees 0 0 0 1 6).gasTipCap * 2 + 1 := by
  decide

/-- C7 (amended).  The adjusted tip cap never exceeds the 10 gwei ceiling;
the submitted transaction's tip cap is the hardcoded 0; its fee cap is twice
the adjusted tip cap, incremented by one unit exactly when the suggested gas
price does not exceed that doubled value; hence fee cap ≥ tip cap always,
strictly whenever the adjusted tip cap is positive or the increment fires. -/
theorem c7_tip_and_fee_caps (suggestedTip suggestedGasPrice numBlobs
    parentExcess parentUsed : Nat) :
    adjustedTipCap suggestedTip numBlobs ≤ MAX_PRIORITY_FEE ∧
    (executeBlobTxFees parentExcess parentUsed suggestedTip suggestedGasPrice
        numBlobs).gasTipCap = 0 ∧
    (executeBlobTxFees parentExcess parentUsed suggestedTip suggestedGasPrice
        numBlobs).gasFeeCap =
      adjustedFeeCap suggestedGasPrice (adjustedTipCap suggestedTip numBlobs) ∧
    (executeBlobTxFees parentExcess parentUsed suggestedTip suggestedGasPrice
        numBlobs).gasTipCap ≤
      (executeBlobTxFees parentExcess parentUsed suggestedTip suggestedGasPrice
        numBlobs).gasFeeCap ∧
    (0 < adjustedTipCap suggestedTip numBlobs →
      (executeBlobTxFees parentExcess parentUsed suggestedTip suggestedGasPrice
        numBlobs).gasTipCap <
        (executeBlobTxFees parentExcess parentUsed suggestedTip
          suggestedGasPrice numBlobs).gasFeeCap) ∧
    (suggestedGasPrice ≤ adjustedTipCap suggestedTip numBlobs * 2 →
      (executeBlobTxFees parentExcess parentUsed suggestedTip suggestedGasPrice
        numBlobs).gasTipCap <
        (executeBlobTxFees parentExcess parentUsed suggestedTip
          suggestedGasPrice numBlobs).gasFeeCap) := by
  refine ⟨?_, rfl, rfl, Nat.zero_le _, ?_, ?_⟩
  · unfold adjustedTipCap
    dsimp only
    split <;> omega
  · intro hpos
    show 0 < adjustedFeeCap suggestedGasPrice (adjustedTipCap suggestedTip numBlobs)
    unfold adjustedFeeCap
    dsimp only
    split <;> omega
  · intro hle
    show 0 < adjustedFeeCap suggestedGasPrice (adjustedTipCap suggestedTip numBlobs)
    unfold adjustedFeeCap
    dsimp only
    split <;> omega

/-- Witness for C7 (amended): a 1 gwei suggested tip with 6 blobs gives a
positive adjusted tip cap and a fee cap strictly above the (zero) tip cap. -/
theorem c7_tip_and_fee_caps_witness :
    0 < adjustedTipCap 1000000000 6 ∧
    (executeBlobTxFees 0 0 1000000000 3000000000 6).gasTipCap <
      (executeBlobTxFees 0 0 1000000000 3000000000 6).gasFeeCap :=
  ⟨by decide,
    (c7_tip_and_fee_caps 1000000000 3000000000 6 0 0).2.2.2.2.1 (by decide)⟩

/-- C8.  At parent excess blob gas 0 (and 0 used), the chain blob base fee
is 1 and the code's blob fee cap is `(1 + 1) * 110 / 100 = 2`, which differs
from the claim's `base * (1 + 10%)` both in floored integer form
(`1 * 110 / 100 = 1`) and in exact rational form (`2 * 10 ≠ 1 * 11`): the
code adds one unit to the base fee before applying the 10% margin. -/
theorem c8_counterexample :
    calcBlobFee (calcExcessBlobGas 0 0) = 1 ∧
    (executeBlobTxFees 0 0 5 5 6).blobFeeCap = 2 ∧
    (executeBlobTxFees 0 0 5 5 6).blobFeeCap ≠
      calcBlobFee (calcExcessBlobGas 0 0) * 110 / 100 ∧
    (executeBlobTxFees 0 0 5 5 6).blobFeeCap * 10 ≠
      calcBlobFee (calcExcessBlobGas 0 0) * 11 := by
  decide

/-- C8 (amended).  For every parent excess/used blob gas, the blob fee cap
equals `(blobBaseFee + 1) * 110 / 100` in integer arithmetic, and is
strictly greater than the chain-computed blob base fee. -/
theorem c8_blob_fee_cap_strictly_exceeds (parentExcess parentUsed suggestedTip
    suggestedGasPrice numBlobs : Nat) :
    (executeBlobTxFees parentExcess parentUsed suggestedTip suggestedGasPrice
        numBlobs).blobFeeCap =
      (calcBlobFee (calcExcessBlobGas parentExcess parentUsed) + 1) * 110 / 100 ∧
    calcBlobFee (calcExcessBlobGas parentExcess parentUsed) <
      (executeBlobTxFees parentExcess parentUsed suggestedTip suggestedGasPrice
        numBlobs).blobFeeCap := by
  refine ⟨rfl, ?_⟩
  show calcBlobFee (calcExcessBlobGas parentExcess parentUsed) <
    blobFeeCapOf (calcBlobFee (calcExcessBlobGas parentExcess parentUsed))
  generalize calcBlobFee (calcExcessBlobGas parentExcess parentUsed) = b
  unfold blobFeeCapOf
  have h1 : b + 1 ≤ (b + 1) * 110 / 100 :=
    (Nat.le_div_iff_mul_le (by norm_num)).2 (by omega)
  omega

theorem connectAux_attempts_le (behavior : ExhaustBehavior)
    (dialOk : Nat → Bool) :
    ∀ (r i : Nat), (connectAux behavior dialOk r i).attempts ≤ r := by
  intro r
  induction r with
  | zero => intro i; exact Nat.le_refl 0
  | succ n ih =>
      intro i
      unfold connectAux
      by_cases h : dialOk i = true
      · simp [h]
      · simp only [h, if_false, Bool.false_eq_true]
        exact Nat.succ_le_succ (ih (i + 1))

theorem connectAux_all_fail (behavior : ExhaustBehavior) (dialOk : Nat → Bool) :
    ∀ (r i : Nat), (∀ j, i ≤ j → j < i + r → dialOk j = false) →
    connectAux behavior dialOk r i =
      ⟨r, (List.range r).map (fun t => RECONNECT_INTERVAL_SECONDS * 2 ^ (i + t)),
        exhaustOutcome behavior⟩ := by
  intro r
  induction r with
  | zero => intro i _; rfl
  | succ n ih =>
      intro i H
      have hfail : dialOk i = false := H i (Nat.le_refl i) (by omega)
      unfold connectAux
      simp only [hfail, if_false, Bool.false_eq_true]
      rw [ih (i + 1) (fun j hj1 hj2 => H j (by omega) (by omega))]
      have hmap : (List.range (n + 1)).map
          (fun t => RECONNECT_INTERVAL_SECONDS * 2 ^ (i + t)) =
          RECONNECT_INTERVAL_SECONDS * 2 ^ i ::
            (List.range n).map
              (fun t => RECONNECT_INTERVAL_SECONDS * 2 ^ (i + 1 + t)) := by
        rw [List.range_succ_eq_map, List.map_cons, List.map_map]
        refine congrArg₂ _ (by simp) ?_
        refine List.map_congr_left ?_
        intro t _
        have : i + Nat.succ t = i + 1 + t := by omega
        simp [Function.comp, this]
      rw [hmap]

/-- C9.  The `cmd/sendblob.go` variant of the bounded connector does not
return a failure to its caller after `maxRetries` dial failures: it calls
`log.Crit`, terminating the process inside the connector, so the caller
never gets to decide. -/
theorem c9_counterexample :
    ¬ specConnectorReturnsFailure ExhaustBehavior.critProcess := by
  intro h
  have h5 := h 5 (fun _ => false) (fun i _ => rfl)
  have hc : (connectRPCClientWithRetries ExhaustBehavior.critProcess
      (fun _ => false) 5).outcome = ConnectOutcome.critFailure := by decide
  rw [h5] at hc
  exact ConnectOutcome.noConfusion hc

/-- C9 (amended).  The connector makes at most `maxRetries` dial attempts,
sleeping `RECONNECT_INTERVAL * 2^i` after the i-th failed attempt; when all
attempts fail, the `cmd/sendblob.go` variant terminates the process
(`log.Crit`) while the other variant returns `nil` so its caller can skip
the endpoint. -/
theorem c9_connector_backoff (behavior : ExhaustBehavior)
    (dialOk : Nat → Bool) (maxRetries : Nat) :
    (connectRPCClientWithRetries behavior dialOk maxRetries).attempts ≤
      maxRetries ∧
    ((∀ i, i < maxRetries → dialOk i = false) →
      connectRPCClientWithRetries behavior dialOk maxRetries =
        ⟨maxRetries,
          (List.range maxRetries).map
            (fun i => RECONNECT_INTERVAL_SECONDS * 2 ^ i),
          exhaustOutcome behavior⟩) := by
  constructor
  · exact connectAux_attempts_le behavior dialOk maxRetries 0
  · intro H
    have h := connectAux_all_fail behavior dialOk maxRetries 0
      (fun j hj1 hj2 => H j (by omega))
    simpa using h

/-- Witness for C9 (amended): three failing dial attempts of the
`nil`-returning variant sleep 30, 60, 120 seconds and return `nil`. -/
theorem c9_connector_backoff_witness :
    (∀ i, i < 3 → (fun _ : Nat => false) i = false) ∧
    connectRPCClientWithRetries ExhaustBehavior.returnNil (fun _ => false) 3 =
      ⟨3, [30, 60, 120], ConnectOutcome.nilReturn⟩ :=
  ⟨fun i _ => rfl,
    ((c9_connector_backoff ExhaustBehavior.returnNil (fun _ => false) 3).2
      (fun i _ => rfl)).trans (by decide)⟩

theorem buildBidRequest_hashes_only (hs : List String) (amount : String)
    (bn ds de : Int) :
    (buildBidRequest hs [] amount bn ds de).txHashes = hs ∧
    (buildBidRequest hs [] amount bn ds de).rawTransactions = [] := by
  unfold buildBidRequest
  by_cases h : 0 < hs.length
  · simp [h]
  · have hnil : hs = [] := List.length_eq_zero.mp (by omega)
    subst hnil
    simp

theorem buildBidRequest_raws_only (raws : List String) (amount : String)
    (bn ds de : Int) :
    (buildBidRequest [] raws amount bn ds de).txHashes = [] ∧
    (buildBidRequest [] raws amount bn ds de).rawTransactions = raws := by
  unfold buildBidRequest
  by_cases h : 0 < raws.length
  · simp [h]
  · have hnil : raws = [] := List.length_eq_zero.mp (by omega)
    subst hnil
    simp

/-- C10.  The HTTP `SendBid` rejects any input that is neither a list of
hash strings nor a list of transactions before a request exists; every
successfully built request populates at most one of the `txHashes` and
`rawTransactions` fields; and hash inputs appear in the request with one
leading "0x" prefix stripped from each hash. -/
theorem c10_sendbid_request_wellformed :
    (∀ (t amount : String) (bn ds de : Int),
      ∃ msg, sendBidHTTP (SendBidInput.other t) amount bn ds de =
        Except.error msg) ∧
    (∀ (input : SendBidInput) (amount : String) (bn ds de : Int)
        (req : HTTPBidRequest),
      sendBidHTTP input amount bn ds de = Except.ok req →
      req.txHashes = [] ∨ req.rawTransactions = []) ∧
    (∀ (l : List String) (amount : String) (bn ds de : Int)
        (req : HTTPBidRequest),
      sendBidHTTP (SendBidInput.hashes l) amount bn ds de = Except.ok req →
      req.txHashes = l.map trim0x ∧ req.rawTransactions = []) := by
  refine ⟨fun t amount bn ds de => ⟨_, rfl⟩, ?_, ?_⟩
  · intro input amount bn ds de req h
    cases input with
    | hashes l =>
        have hreq : buildBidRequest (l.map trim0x) [] amount bn ds de = req := by
          simpa [sendBidHTTP] using h
        subst hreq
        exact Or.inr (buildBidRequest_hashes_only (l.map trim0x) amount bn ds de).2
    | txs l =>
        simp only [sendBidHTTP] at h
        cases hm : l.mapM (fun tx => tx.marshal) with
        | none => rw [hm] at h; simp at h
        | some raws =>
            rw [hm] at h
            have hreq : buildBidRequest [] raws amount bn ds de = req := by
              simpa using h
            subst hreq
            exact Or.inl (buildBidRequest_raws_only raws amount bn ds de).1
    | other t => simp [sendBidHTTP] at h
  · intro l amount bn ds de req h
    have hreq : buildBidRequest (l.map trim0x) [] amount bn ds de = req := by
      simpa [sendBidHTTP] using h
    subst hreq
    exact buildBidRequest_hashes_only (l.map trim0x) amount bn ds de

/-- Witness for C10: a two-hash input, one with a "0x" prefix. -/
theorem c10_sendbid_request_wellformed_witness :
    sendBidHTTP (SendBidInput.hashes ["0xab", "cd"]) "1" 2 3 4 =
      Except.ok (buildBidRequest ["ab", "cd"] [] "1" 2 3 4) ∧
    ((buildBidRequest ["ab", "cd"] [] "1" 2 3 4).txHashes =
        ["0xab", "cd"].map trim0x ∧
      (buildBidRequest ["ab", "cd"] [] "1" 2 3 4).rawTransactions = []) :=
  ⟨by rfl,
    c10_sendbid_request_wellformed.2.2 ["0xab", "cd"] "1" 2 3 4
      (buildBidRequest ["ab", "cd"] [] "1" 2 3 4) (by rfl)⟩
